import Mathlib

set_option maxHeartbeats 1600000

/-!
Verification of the wire-level data path of this repository:
the brine value codec (rpyc/core/brine.py), the socket stream
(rpyc/core/stream.py) and the backoff connect helper (rpyc/lib/__init__.py).

The embedding follows the Python 3 branch of the source (`is_py3k` true).
Helpers imported from `rpyc.lib.compat` (absent from the source tree) are
modelled by their standard-library meaning: `Struct` is `struct.Struct`
(`unpack` fails unless the buffer has exactly the format size, `pack` of an
out-of-range length fails), `BytesIO.read(n)` returns at most `n` bytes and
never fails, `BYTES_LITERAL(s)` is the ASCII encoding of `s`.
-/

namespace Brine

/-- A Python value as handled by brine, plus an `unsupported` constructor
standing for an object of any non-brinable type. Floats and complexes are
modelled by their IEEE-754 byte image packed big-endian into one natural
number (the exact 8 / 16 bytes that `Struct("!d")` / `Struct("!dd")` move);
brine never interprets those bytes. A byte-string is its list of byte
values, a text string its list of Unicode code points, and a frozenset is
modelled by the element order its iteration yields at dump time. -/
inductive PyObj where
  | none
  | notImplemented
  | ellipsis
  | bool (b : Bool)
  | int (i : Int)
  | float (bits : Nat)
  | complex (bits : Nat)
  | bytes (bs : List Nat)
  | str (cs : List Nat)
  | slice (start stop step : PyObj)
  | tuple (xs : List PyObj)
  | fset (xs : List PyObj)
  | unsupported (id : Nat)
  deriving Repr, Inhabited

/-- Errors dump can raise: `typeErr` is the `TypeError("cannot dump ...")`
of `_undumpable`; `structErr` is a `struct.error` from `I4.pack` when a
length does not fit the 32-bit length field. -/
inductive DumpErr where
  | typeErr
  | structErr
  deriving DecidableEq, Repr

/-- Errors load can raise. `dispatchTypeErr` is the `TypeError` raised when
`_load_registry.get(tag)` returns `None` and is called (empty buffer or
unrecognized tag byte); `structErr` is a `struct.error` from unpacking a
short fixed-size field; `unicodeDecodeErr` is the `UnicodeDecodeError` of
`read_str`'s `.decode('ascii')`; `attrErr` is the `AttributeError` of
`_load_unicode` calling `.decode` on a py3 `str`; `valueErr` covers the
`ValueError` / `TypeError` of `int()` conversion and tuple unpacking;
`outOfFuel` is an artifact of the explicit recursion-depth budget. -/
inductive LoadErr where
  | dispatchTypeErr
  | structErr
  | unicodeDecodeErr
  | attrErr
  | valueErr
  | outOfFuel
  deriving DecidableEq, Repr

/-- Big-endian bytes of `n`, exactly `w` bytes (network order, as packed by
`Struct("!B")`, `Struct("!L")`, `Struct("!d")` on the byte level). -/
def toBE : Nat → Nat → List Nat
  | 0, _ => []
  | w + 1, n => toBE w (n / 256) ++ [n % 256]

/-- Big-endian value of a byte list, as unpacked by `Struct("!L")` etc. -/
def fromBE (bs : List Nat) : Nat :=
  bs.foldl (fun a b => a * 256 + b) 0

theorem toBE_length (w n : Nat) : (toBE w n).length = w := by
  induction w generalizing n with
  | zero => rfl
  | succ w ih => simp [toBE, ih]

theorem fromBE_append (bs : List Nat) (b : Nat) :
    fromBE (bs ++ [b]) = fromBE bs * 256 + b := by
  simp [fromBE, List.foldl_append]

theorem fromBE_toBE (w n : Nat) : fromBE (toBE w n) = n % 256 ^ w := by
  induction w generalizing n with
  | zero => simp [toBE, fromBE]; omega
  | succ w ih =>
    rw [toBE, fromBE_append, ih]
    have h : 256 ^ (w + 1) = 256 * 256 ^ w := by ring
    rw [h, Nat.mod_mul]
    ring

/-- `I1.pack`: one byte, fails (struct.error) unless the value fits. -/
def I1pack (n : Nat) : Except DumpErr (List Nat) :=
  if n < 256 then .ok [n] else .error .structErr

/-- `I4.pack`: four bytes big-endian, fails (struct.error) unless the value
fits in 32 bits. -/
def I4pack (n : Nat) : Except DumpErr (List Nat) :=
  if n < 2 ^ 32 then .ok (toBE 4 n) else .error .structErr

/-- Most-significant-first decimal digit bytes of a positive number; the
first argument is a structural recursion budget (any budget at least the
number itself is enough, since dividing by ten strictly shrinks it). -/
def natDecAux : Nat → Nat → List Nat
  | 0, _ => []
  | fuel + 1, n => if n = 0 then [] else natDecAux fuel (n / 10) ++ [n % 10 + 48]

/-- ASCII bytes of the decimal digits of `n`, as `str(n)` yields for a
natural number. -/
def natDecBytes (n : Nat) : List Nat :=
  if n = 0 then [48] else natDecAux n n

/-- `BYTES_LITERAL(str(i))`: ASCII decimal text of an integer, with a
leading minus sign for negative values. -/
def intDecBytes (i : Int) : List Nat :=
  if i < 0 then 45 :: natDecBytes i.natAbs else natDecBytes i.natAbs

def isDigitByte (b : Nat) : Bool := 48 ≤ b && b ≤ 57

def digitsVal (ds : List Nat) : Nat :=
  ds.foldl (fun a d => a * 10 + (d - 48)) 0

/-- `int(bytes)`: parse ASCII decimal text, an optional sign followed by at
least one digit; anything else raises `ValueError` (in particular
`int(b"")`). Pythons tolerance for surrounding whitespace and interior
underscores is not modelled; no input built by this file uses either. -/
def parseIntBytes : List Nat → Except LoadErr Int
  | 45 :: ds =>
    if ds ≠ [] ∧ ds.all isDigitByte then .ok (-(digitsVal ds : Int))
    else .error .valueErr
  | 43 :: ds =>
    if ds ≠ [] ∧ ds.all isDigitByte then .ok (digitsVal ds)
    else .error .valueErr
  | ds =>
    if ds ≠ [] ∧ ds.all isDigitByte then .ok (digitsVal ds)
    else .error .valueErr

/-- `bytes.decode('ascii')` as used by `read_str`: the byte values become
the code points, failing with `UnicodeDecodeError` on any byte ≥ 0x80. -/
def asciiDecode (bs : List Nat) : Except LoadErr (List Nat) :=
  if bs.all (· < 128) then .ok bs else .error .unicodeDecodeErr

/-- UTF-8 bytes of one code point (`str.encode("utf8")`, per scalar value).
Meaningful for Unicode scalar values; total on all naturals so that the
embedding stays executable. -/
def utf8EncodeChar (c : Nat) : List Nat :=
  if c < 0x80 then [c]
  else if c < 0x800 then [0xC0 + c / 0x40, 0x80 + c % 0x40]
  else if c < 0x10000 then
    [0xE0 + c / 0x1000, 0x80 + c / 0x40 % 0x40, 0x80 + c % 0x40]
  else
    [0xF0 + c / 0x40000 % 0x40, 0x80 + c / 0x1000 % 0x40,
     0x80 + c / 0x40 % 0x40, 0x80 + c % 0x40]

/-- `str.encode("utf8")` over the whole code-point list. -/
def utf8Encode (cs : List Nat) : List Nat :=
  (cs.map utf8EncodeChar).flatten

def isContByte (b : Nat) : Bool := 0x80 ≤ b && b < 0xC0

/-- `bytes.decode("utf-8")`: sequential UTF-8 decoding, failing with an
error on a malformed lead or continuation byte. Overlong-form and
surrogate rejection are not modelled; in this development the function is
only ever applied to the empty byte-string (the single case in which
`_load_unicode` receives `bytes` rather than `str`). -/
def utf8Decode : List Nat → Except LoadErr (List Nat)
  | [] => .ok []
  | b :: rest =>
    if b < 0x80 then (utf8Decode rest).map (fun ds => b :: ds)
    else if 0xC0 ≤ b ∧ b < 0xE0 then
      match rest with
      | c1 :: rest2 =>
        if isContByte c1 then
          (utf8Decode rest2).map (fun ds => ((b - 0xC0) * 0x40 + (c1 - 0x80)) :: ds)
        else .error .unicodeDecodeErr
      | [] => .error .unicodeDecodeErr
    else if 0xE0 ≤ b ∧ b < 0xF0 then
      match rest with
      | c1 :: c2 :: rest2 =>
        if isContByte c1 && isContByte c2 then
          (utf8Decode rest2).map
            (fun ds => ((b - 0xE0) * 0x1000 + (c1 - 0x80) * 0x40 + (c2 - 0x80)) :: ds)
        else .error .unicodeDecodeErr
      | _ => .error .unicodeDecodeErr
    else if 0xF0 ≤ b ∧ b < 0xF5 then
      match rest with
      | c1 :: c2 :: c3 :: rest2 =>
        if isContByte c1 && isContByte c2 && isContByte c3 then
          (utf8Decode rest2).map
            (fun ds => ((b - 0xF0) * 0x40000 + (c1 - 0x80) * 0x1000 +
              (c2 - 0x80) * 0x40 + (c3 - 0x80)) :: ds)
        else .error .unicodeDecodeErr
      | _ => .error .unicodeDecodeErr
    else .error .unicodeDecodeErr

/-- `_dump_bytes`: singleton tag for the empty byte-string, one dedicated
tag per length 1-4 followed by the raw bytes, an 8-bit length prefix below
256, and a 32-bit length prefix otherwise. -/
def dumpBytesPayload (bs : List Nat) : Except DumpErr (List Nat) :=
  if bs.length = 0 then .ok [0x01]
  else if bs.length = 1 then .ok (0x0a :: bs)
  else if bs.length = 2 then .ok (0x0b :: bs)
  else if bs.length = 3 then .ok (0x0c :: bs)
  else if bs.length = 4 then .ok (0x0d :: bs)
  else if bs.length < 256 then .ok (0x0e :: bs.length :: bs)
  else (I4pack bs.length).map (fun lb => 0x0f :: (lb ++ bs))

/-- `_dump_tuple`'s header: empty-tuple tag, one dedicated tag per length
1-4, an 8-bit count prefix below 256 and a 32-bit count prefix otherwise. -/
def tupleHeader (n : Nat) : Except DumpErr (List Nat) :=
  if n = 0 then .ok [0x02]
  else if n = 1 then .ok [0x10]
  else if n = 2 then .ok [0x11]
  else if n = 3 then .ok [0x12]
  else if n = 4 then .ok [0x13]
  else if n < 256 then .ok [0x14, n]
  else (I4pack n).map (fun lb => 0x15 :: lb)

mutual

/-- `_dump` composed with the registry: emits the byte representation of
one value, or fails. `TAG_SLICE` is followed by the encoding of the
3-tuple `(start, stop, step)` (whose header is `TAG_TUP3 = 0x12`);
`TAG_FSET` by the encoding of the tuple of the elements in iteration
order; `TAG_UNICODE` by the byte-string encoding of the UTF-8 text. An
integer in the reserved range -48..159 is the single byte `value + 0x50`;
other integers are length-prefixed ASCII decimal text. -/
def dumpObj : PyObj → Except DumpErr (List Nat)
  | .none => .ok [0x00]
  | .notImplemented => .ok [0x05]
  | .ellipsis => .ok [0x06]
  | .bool b => .ok [if b then 0x03 else 0x04]
  | .int i =>
    if -48 ≤ i ∧ i ≤ 159 then .ok [(i + 0x50).toNat]
    else
      let ds := intDecBytes i
      if ds.length < 256 then .ok (0x16 :: ds.length :: ds)
      else (I4pack ds.length).map (fun lb => 0x17 :: (lb ++ ds))
  | .float bits => .ok (0x18 :: toBE 8 bits)
  | .complex bits => .ok (0x1b :: toBE 16 bits)
  | .bytes bs => dumpBytesPayload bs
  | .str cs => (dumpBytesPayload (utf8Encode cs)).map (fun p => 0x08 :: p)
  | .slice a b c => do
    let da ← dumpObj a
    let db ← dumpObj b
    let dc ← dumpObj c
    .ok (0x19 :: 0x12 :: (da ++ db ++ dc))
  | .tuple xs => do
    let h ← tupleHeader xs.length
    let body ← dumpList xs
    .ok (h ++ body)
  | .fset xs => do
    let h ← tupleHeader xs.length
    let body ← dumpList xs
    .ok (0x1a :: (h ++ body))
  | .unsupported _ => .error .typeErr

/-- Concatenated encodings of the elements of a composite, in order,
failing at the first element `_dump` fails on. -/
def dumpList : List PyObj → Except DumpErr (List Nat)
  | [] => .ok []
  | x :: xs => do
    let d ← dumpObj x
    let r ← dumpList xs
    .ok (d ++ r)

end

/-- `dump`: byte-string representation of the object (the joined stream). -/
def dump : PyObj → Except DumpErr (List Nat) := dumpObj

mutual

/-- `dumpable`: True for the simple types, recursively for tuple and
frozenset elements and for the three slice fields, False otherwise. -/
def dumpable : PyObj → Bool
  | .tuple xs => dumpableList xs
  | .fset xs => dumpableList xs
  | .slice a b c => dumpable a && dumpable b && dumpable c
  | .unsupported _ => false
  | _ => true

/-- `all(dumpable(item) for item in obj)`. -/
def dumpableList : List PyObj → Bool
  | [] => true
  | x :: xs => dumpable x && dumpableList xs

end

/-- The fixed-count element loop shared by `_load_tup1` .. `_load_tup_l4`:
run the element loader `count` times, threading the remaining input. -/
def loadManyAux (ld : List Nat → Except LoadErr (PyObj × List Nat)) :
    Nat → List Nat → Except LoadErr (List PyObj × List Nat)
  | 0, input => .ok ([], input)
  | k + 1, input => do
    let (x, r) ← ld input
    let (xs, r2) ← loadManyAux ld k r
    .ok (x :: xs, r2)

/-- `int(obj)` as applied by `_load_long` to whatever the nested `_load`
produced: identity on ints, 0/1 on bools, decimal parsing on py3 text and
on byte-strings, and an error on the other kinds (conversion of a float's
IEEE image is not interpreted and is mapped to the error case; no input in
this development reaches it, since `dump` never emits `TAG_LONG`). -/
def intOfPy : PyObj → Except LoadErr Int
  | .int i => .ok i
  | .bool b => .ok (if b then 1 else 0)
  | .str cs => parseIntBytes cs
  | .bytes bs => parseIntBytes bs
  | _ => .error .valueErr

/-- `start, stop, step = _load(stream)` in `_load_slice`: unpacking an
iterable of exactly three items (a 3-tuple from well-formed input; a
3-element frozenset, text or byte-string also unpack), otherwise a
`TypeError` / `ValueError`. -/
def unpack3 : PyObj → Except LoadErr (PyObj × PyObj × PyObj)
  | .tuple [a, b, c] => .ok (a, b, c)
  | .fset [a, b, c] => .ok (a, b, c)
  | .str [a, b, c] => .ok (.str [a], .str [b], .str [c])
  | .bytes [a, b, c] => .ok (.int a, .int b, .int c)
  | _ => .error .valueErr

/-- `frozenset(obj)` in `_load_frozenset`: the element list of an iterable
(a tuple from well-formed input; iterating text yields its characters,
iterating a byte-string yields its byte values), otherwise a `TypeError`. -/
def iterElems : PyObj → Except LoadErr (List PyObj)
  | .tuple xs => .ok xs
  | .fset xs => .ok xs
  | .str cs => .ok (cs.map (fun c => .str [c]))
  | .bytes bs => .ok (bs.map (fun b => .int b))
  | _ => .error .valueErr

/-- `read_str(stream, l)`: read at most `l` bytes (silently fewer when the
buffer is short, exactly like `BytesIO.read`) and decode them as ASCII. -/
def loadStr (l : Nat) (input : List Nat) : Except LoadErr (PyObj × List Nat) :=
  (asciiDecode (input.take l)).map (fun cs => (.str cs, input.drop l))

/-- `_load_int_l1` / `_load_int_l4` body after the length field:
`int(stream.read(l))`, again reading at most `l` bytes. -/
def loadIntBody (l : Nat) (input : List Nat) : Except LoadErr (PyObj × List Nat) :=
  (parseIntBytes (input.take l)).map (fun i => (.int i, input.drop l))

/-- `(loadManyAux ld k input)` wrapped into a tuple result. -/
def loadTup (ld : List Nat → Except LoadErr (PyObj × List Nat))
    (k : Nat) (input : List Nat) : Except LoadErr (PyObj × List Nat) :=
  (loadManyAux ld k input).map (fun p => (.tuple p.1, p.2))

/-- `_load`, with an explicit recursion-depth budget `fuel` (the Python
original recurses without bound; every nesting level of well-formed input
consumes at least one byte, so `input.length + 1` is always enough, see
`load`). Reads one tag byte — an empty read dispatches `None` from the
registry and dies with a `TypeError` — then tests the reserved
small-integer byte range `0x20..0xEF` before the generic tag dispatch,
exactly like the `tag in IMM_INTS_LOADER` test. -/
def loadFuel : Nat → List Nat → Except LoadErr (PyObj × List Nat)
  | 0 => fun _ => .error .outOfFuel
  | fuel + 1 => fun input =>
    match input with
    | [] => .error .dispatchTypeErr
    | t :: rest =>
      if 0x20 ≤ t ∧ t ≤ 0xEF then .ok (.int ((t : Int) - 0x50), rest)
      else
        match t with
        | 0x00 => .ok (.none, rest)
        | 0x01 => .ok (.bytes [], rest)
        | 0x02 => .ok (.tuple [], rest)
        | 0x03 => .ok (.bool true, rest)
        | 0x04 => .ok (.bool false, rest)
        | 0x05 => .ok (.notImplemented, rest)
        | 0x06 => .ok (.ellipsis, rest)
        | 0x08 => do
          let (x, r) ← loadFuel fuel rest
          match x with
          | .bytes bs => (utf8Decode bs).map (fun cs => (.str cs, r))
          | _ => .error .attrErr
        | 0x09 => do
          let (x, r) ← loadFuel fuel rest
          (intOfPy x).map (fun i => (.int i, r))
        | 0x0a => loadStr 1 rest
        | 0x0b => loadStr 2 rest
        | 0x0c => loadStr 3 rest
        | 0x0d => loadStr 4 rest
        | 0x0e =>
          match rest with
          | [] => .error .structErr
          | l :: r => loadStr l r
        | 0x0f =>
          if 4 ≤ rest.length then loadStr (fromBE (rest.take 4)) (rest.drop 4)
          else .error .structErr
        | 0x10 => loadTup (loadFuel fuel) 1 rest
        | 0x11 => loadTup (loadFuel fuel) 2 rest
        | 0x12 => loadTup (loadFuel fuel) 3 rest
        | 0x13 => loadTup (loadFuel fuel) 4 rest
        | 0x14 =>
          match rest with
          | [] => .error .structErr
          | l :: r => loadTup (loadFuel fuel) l r
        | 0x15 =>
          if 4 ≤ rest.length then loadTup (loadFuel fuel) (fromBE (rest.take 4)) (rest.drop 4)
          else .error .structErr
        | 0x16 =>
          match rest with
          | [] => .error .structErr
          | l :: r => loadIntBody l r
        | 0x17 =>
          if 4 ≤ rest.length then loadIntBody (fromBE (rest.take 4)) (rest.drop 4)
          else .error .structErr
        | 0x18 =>
          if 8 ≤ rest.length then .ok (.float (fromBE (rest.take 8)), rest.drop 8)
          else .error .structErr
        | 0x19 => do
          let (x, r) ← loadFuel fuel rest
          (unpack3 x).map (fun p => (.slice p.1 p.2.1 p.2.2, r))
        | 0x1a => do
          let (x, r) ← loadFuel fuel rest
          (iterElems x).map (fun xs => (.fset xs, r))
        | 0x1b =>
          if 16 ≤ rest.length then .ok (.complex (fromBE (rest.take 16)), rest.drop 16)
          else .error .structErr
        | _ => .error .dispatchTypeErr

/-- `load(data)`: recreate one object from its byte-string representation,
discarding whatever trails it (the `BytesIO` cursor is dropped). The fuel
`data.length + 1` dominates the recursion depth of any run, because each
nesting level consumes at least one byte before recursing. -/
def load (data : List Nat) : Except LoadErr PyObj :=
  (loadFuel (data.length + 1) data).map Prod.fst

example : dump (.bytes [97, 98]) = .ok [0x0b, 97, 98] := rfl
example : load [0x0b, 97, 98] = .ok (.str [97, 98]) := rfl
example : dump (.str [104, 105]) = .ok [0x08, 0x0b, 104, 105] := rfl
example : load [0x08, 0x0b, 104, 105] = .error .attrErr := rfl
example : load [0x08, 0x01] = .ok (.str []) := rfl
example : dump (.tuple [.int 7, .bool true]) = .ok [0x11, 0x57, 0x03] := rfl
example : load [0x11, 0x57, 0x03] = .ok (.tuple [.int 7, .bool true]) := rfl
example : load [] = .error .dispatchTypeErr := rfl
example : load [0x07] = .error .dispatchTypeErr := rfl
example : load [0x0f, 0, 0, 0, 5, 97, 98] = .ok (.str [97, 98]) := rfl
example : load [0x18] = .error .structErr := rfl
example : dump (.int 900) = .ok [0x16, 3, 57, 48, 48] := rfl
example : load [0x16, 3, 57, 48, 48] = .ok (.int 900) := rfl

/-- What `_load` makes of the encoding of a byte-string payload: the empty
byte-string round-trips (its loader returns `b""`), every other length is
routed through `read_str` and comes back as ASCII-decoded py3 text, or
dies on a byte ≥ 0x80. -/
def decOfBytes (bs : List Nat) : Except LoadErr PyObj :=
  if bs.length = 0 then .ok (.bytes [])
  else (asciiDecode bs).map .str

mutual

/-- The value (or error) `_load` produces from `dump v`, as a function of
`v`: the composition of the dump and load pipelines, including the py3
`read_str` ASCII mangling of byte-strings, the resulting `AttributeError`
on non-empty text, and the length truncation of the 32-bit fields. -/
def decOf : PyObj → Except LoadErr PyObj
  | .none => .ok .none
  | .notImplemented => .ok .notImplemented
  | .ellipsis => .ok .ellipsis
  | .bool b => .ok (.bool b)
  | .int i =>
    if -48 ≤ i ∧ i ≤ 159 then .ok (.int i)
    else (parseIntBytes (intDecBytes i)).map .int
  | .float bits => .ok (.float (bits % 2 ^ 64))
  | .complex bits => .ok (.complex (bits % 2 ^ 128))
  | .bytes bs => decOfBytes bs
  | .str cs => do
    let x ← decOfBytes (utf8Encode cs)
    match x with
    | .bytes bs => (utf8Decode bs).map .str
    | _ => .error .attrErr
  | .slice a b c => do
    let x ← decOf a
    let y ← decOf b
    let z ← decOf c
    .ok (.slice x y z)
  | .tuple xs => (decList xs).map .tuple
  | .fset xs => (decList xs).map .fset
  | .unsupported _ => .error .valueErr

/-- Element-wise `decOf`, failing at the first failing element. -/
def decList : List PyObj → Except LoadErr (List PyObj)
  | [] => .ok []
  | x :: xs => do
    let y ← decOf x
    let ys ← decList xs
    .ok (y :: ys)

end

mutual

/-- Recursion depth `_load` needs on the encoding of a value: one call per
nesting level (the nested byte-string load of `TAG_UNICODE` and the nested
tuple load of `TAG_SLICE` / `TAG_FSET` each add a level). -/
def pyNeed : PyObj → Nat
  | .str _ => 2
  | .slice a b c => max (pyNeed a) (max (pyNeed b) (pyNeed c)) + 2
  | .tuple xs => pyNeedList xs + 1
  | .fset xs => pyNeedList xs + 2
  | _ => 1

/-- Depth needed by the deepest element. -/
def pyNeedList : List PyObj → Nat
  | [] => 0
  | x :: xs => max (pyNeed x) (pyNeedList xs)

end

mutual

/-- Termination measure for the induction over values; `slice` is weighted
heavily enough that the 3-tuple of its fields is smaller. -/
def pySize : PyObj → Nat
  | .slice a b c => pySize a + pySize b + pySize c + 8
  | .tuple xs => pyListSize xs + 1
  | .fset xs => pyListSize xs + 2
  | _ => 1

/-- Termination measure for element lists. -/
def pyListSize : List PyObj → Nat
  | [] => 1
  | x :: xs => pySize x + pyListSize xs + 1

end

theorem decList_length (xs : List PyObj) (l : List PyObj)
    (h : decList xs = .ok l) : l.length = xs.length := by
  induction xs generalizing l with
  | nil =>
    have h2 : Except.ok ([] : List PyObj) = Except.ok l := h
    cases h2
    rfl
  | cons x xs ih =>
    rw [decList] at h
    cases hx : decOf x with
    | error e =>
      rw [hx] at h
      exact Except.noConfusion h
    | ok y =>
      rw [hx] at h
      cases hxs : decList xs with
      | error e =>
        rw [hxs] at h
        exact Except.noConfusion h
      | ok ys =>
        rw [hxs] at h
        have h2 : Except.ok (y :: ys) = Except.ok l := h
        cases h2
        simp [ih ys hxs]

theorem bind_ok_inv {α β ε : Type} (e : Except ε α) (f : α → Except ε β) (b : β)
    (h : (e >>= f) = .ok b) : ∃ a, e = .ok a ∧ f a = .ok b := by
  cases e with
  | error x => exact Except.noConfusion h
  | ok a => exact ⟨a, rfl, h⟩

theorem map_ok_inv {α β ε : Type} (e : Except ε α) (f : α → β) (b : β)
    (h : (e.map f) = .ok b) : ∃ a, e = .ok a ∧ f a = b := by
  cases e with
  | error x => exact Except.noConfusion h
  | ok a =>
    have h2 : Except.ok (f a) = Except.ok b := h
    cases h2
    exact ⟨a, rfl, rfl⟩

theorem map_error_inv {α β ε : Type} (e : Except ε α) (f : α → β) (x : ε)
    (h : (e.map f) = .error x) : e = .error x := by
  cases e with
  | error y =>
    have h2 : Except.error (α := β) y = Except.error x := h
    cases h2
    rfl
  | ok a => exact Except.noConfusion h

theorem dumpBytesPayload_pos (bs out : List Nat)
    (h : dumpBytesPayload bs = .ok out) : 1 ≤ out.length := by
  rw [dumpBytesPayload] at h
  split_ifs at h
  case _ => cases h; simp
  case _ => cases h; simp
  case _ => cases h; simp
  case _ => cases h; simp
  case _ => cases h; simp
  case _ => cases h; simp
  case _ =>
    obtain ⟨lb, _, h2⟩ := map_ok_inv _ _ _ h
    cases h2
    simp

theorem tupleHeader_pos (n : Nat) (out : List Nat)
    (h : tupleHeader n = .ok out) : 1 ≤ out.length := by
  rw [tupleHeader] at h
  split_ifs at h
  case _ => cases h; simp
  case _ => cases h; simp
  case _ => cases h; simp
  case _ => cases h; simp
  case _ => cases h; simp
  case _ => cases h; simp
  case _ =>
    obtain ⟨lb, _, h2⟩ := map_ok_inv _ _ _ h
    cases h2
    simp

mutual

theorem pyNeed_le (v : PyObj) (out : List Nat) (h : dumpObj v = .ok out) :
    pyNeed v ≤ out.length ∧ 1 ≤ out.length := by
  cases v with
  | none =>
    have h2 : Except.ok [0x00] = Except.ok out := h
    cases h2
    exact ⟨Nat.le.refl, Nat.le.refl⟩
  | notImplemented =>
    have h2 : Except.ok [0x05] = Except.ok out := h
    cases h2
    exact ⟨Nat.le.refl, Nat.le.refl⟩
  | ellipsis =>
    have h2 : Except.ok [0x06] = Except.ok out := h
    cases h2
    exact ⟨Nat.le.refl, Nat.le.refl⟩
  | bool b =>
    have h2 : Except.ok [if b then 0x03 else 0x04] = Except.ok out := h
    cases h2
    exact ⟨Nat.le.refl, Nat.le.refl⟩
  | int i =>
    rw [dumpObj] at h
    split_ifs at h with h1
    · cases h; exact ⟨Nat.le.refl, Nat.le.refl⟩
    · have h' : (if (intDecBytes i).length < 256
          then Except.ok (0x16 :: (intDecBytes i).length :: intDecBytes i)
          else (I4pack (intDecBytes i).length).map
            (fun lb => 0x17 :: (lb ++ intDecBytes i))) = .ok out := h
      split_ifs at h' with h2
      · cases h'
        exact ⟨by simp [pyNeed], by simp⟩
      · obtain ⟨lb, hI, h3⟩ := map_ok_inv _ _ _ h'
        cases h3
        exact ⟨by simp [pyNeed], by simp⟩
  | float bits =>
    have h2 : Except.ok (0x18 :: toBE 8 bits) = Except.ok out := h
    cases h2
    constructor
    · simp [pyNeed]
    · simp
  | complex bits =>
    have h2 : Except.ok (0x1b :: toBE 16 bits) = Except.ok out := h
    cases h2
    constructor
    · simp [pyNeed]
    · simp
  | bytes bs =>
    have hp := dumpBytesPayload_pos bs out h
    exact ⟨by simpa [pyNeed] using hp, hp⟩
  | str cs =>
    rw [dumpObj] at h
    obtain ⟨p, hp, h2⟩ := map_ok_inv _ _ _ h
    cases h2
    have := dumpBytesPayload_pos _ _ hp
    constructor
    · simp [pyNeed]; omega
    · simp
  | slice a b c =>
    rw [dumpObj] at h
    obtain ⟨da, hda, h2⟩ := bind_ok_inv _ _ _ h
    obtain ⟨db, hdb, h3⟩ := bind_ok_inv _ _ _ h2
    obtain ⟨dc, hdc, h4⟩ := bind_ok_inv _ _ _ h3
    have h5 : Except.ok (0x19 :: 0x12 :: (da ++ db ++ dc)) = Except.ok out := h4
    cases h5
    have ia := pyNeed_le a da hda
    have ib := pyNeed_le b db hdb
    have ic := pyNeed_le c dc hdc
    constructor
    · simp only [pyNeed, List.length_cons, List.length_append]
      omega
    · simp
  | tuple xs =>
    rw [dumpObj] at h
    obtain ⟨hd, hh, h2⟩ := bind_ok_inv _ _ _ h
    obtain ⟨body, hb, h3⟩ := bind_ok_inv _ _ _ h2
    have h4 : Except.ok (hd ++ body) = Except.ok out := h3
    cases h4
    have i1 := tupleHeader_pos _ _ hh
    have i2 := pyNeedList_le xs body hb
    constructor
    · simp only [pyNeed, List.length_append]
      omega
    · simp only [List.length_append]
      omega
  | fset xs =>
    rw [dumpObj] at h
    obtain ⟨hd, hh, h2⟩ := bind_ok_inv _ _ _ h
    obtain ⟨body, hb, h3⟩ := bind_ok_inv _ _ _ h2
    have h4 : Except.ok (0x1a :: (hd ++ body)) = Except.ok out := h3
    cases h4
    have i1 := tupleHeader_pos _ _ hh
    have i2 := pyNeedList_le xs body hb
    constructor
    · simp only [pyNeed, List.length_cons, List.length_append]
      omega
    · simp
  | unsupported n => exact Except.noConfusion h

theorem pyNeedList_le (xs : List PyObj) (out : List Nat)
    (h : dumpList xs = .ok out) : pyNeedList xs ≤ out.length := by
  cases xs with
  | nil =>
    have h2 : Except.ok ([] : List Nat) = Except.ok out := h
    cases h2
    exact Nat.le.refl
  | cons x xs =>
    rw [dumpList] at h
    obtain ⟨d, hd, h2⟩ := bind_ok_inv _ _ _ h
    obtain ⟨r, hr, h3⟩ := bind_ok_inv _ _ _ h2
    have h4 : Except.ok (d ++ r) = Except.ok out := h3
    cases h4
    have i1 := pyNeed_le x d hd
    have i2 := pyNeedList_le xs r hr
    simp only [pyNeedList, List.length_append]
    omega

end

theorem take_exact (l r : List Nat) (n : Nat) (h : l.length = n) :
    (l ++ r).take n = l := by
  subst h
  exact List.take_left l r

theorem drop_exact (l r : List Nat) (n : Nat) (h : l.length = n) :
    (l ++ r).drop n = r := by
  subst h
  exact List.drop_left l r

theorem loadStr_exact (arg rest : List Nat) (hne : arg ≠ []) :
    loadStr arg.length (arg ++ rest) = (decOfBytes arg).map (fun x => (x, rest)) := by
  rw [loadStr, decOfBytes, List.take_left, List.drop_left,
    if_neg (by simpa using hne)]
  cases h : asciiDecode arg <;> simp [Except.map]

theorem loadIntBody_exact (arg rest : List Nat) :
    loadIntBody arg.length (arg ++ rest) =
      ((parseIntBytes arg).map PyObj.int).map (fun x => (x, rest)) := by
  rw [loadIntBody, List.take_left, List.drop_left]
  cases h : parseIntBytes arg <;> simp [Except.map]

theorem load_payload (arg out : List Nat) (h : dumpBytesPayload arg = .ok out)
    (fuel : Nat) (hf : 1 ≤ fuel) (rest : List Nat) :
    loadFuel fuel (out ++ rest) = (decOfBytes arg).map (fun x => (x, rest)) := by
  obtain ⟨f, rfl⟩ : ∃ f, fuel = f + 1 := ⟨fuel - 1, by omega⟩
  rw [dumpBytesPayload] at h
  split_ifs at h with h0 h1 h2 h3 h4 h5
  · cases h
    have he : arg = [] := List.length_eq_zero.mp h0
    subst he
    rfl
  · cases h
    have step : loadFuel (f + 1) ((0x0a :: arg) ++ rest) = loadStr 1 (arg ++ rest) := rfl
    rw [step, ← h1, loadStr_exact arg rest (by intro e; rw [e] at h1; exact absurd h1 (by simp))]
  · cases h
    have step : loadFuel (f + 1) ((0x0b :: arg) ++ rest) = loadStr 2 (arg ++ rest) := rfl
    rw [step, ← h2, loadStr_exact arg rest (by intro e; rw [e] at h2; exact absurd h2 (by simp))]
  · cases h
    have step : loadFuel (f + 1) ((0x0c :: arg) ++ rest) = loadStr 3 (arg ++ rest) := rfl
    rw [step, ← h3, loadStr_exact arg rest (by intro e; rw [e] at h3; exact absurd h3 (by simp))]
  · cases h
    have step : loadFuel (f + 1) ((0x0d :: arg) ++ rest) = loadStr 4 (arg ++ rest) := rfl
    rw [step, ← h4, loadStr_exact arg rest (by intro e; rw [e] at h4; exact absurd h4 (by simp))]
  · cases h
    have step : loadFuel (f + 1) ((0x0e :: arg.length :: arg) ++ rest) =
        loadStr arg.length (arg ++ rest) := rfl
    rw [step, loadStr_exact arg rest (by intro e; rw [e] at h0; exact absurd rfl h0)]
  · obtain ⟨lb, hI, hout⟩ := map_ok_inv _ _ _ h
    cases hout
    rw [I4pack] at hI
    split_ifs at hI with h32
    have hlb : Except.ok (toBE 4 arg.length) = Except.ok lb := hI
    cases hlb
    have step : loadFuel (f + 1) ((0x0f :: (toBE 4 arg.length ++ arg)) ++ rest) =
        (if 4 ≤ ((toBE 4 arg.length ++ arg) ++ rest).length then
          loadStr (fromBE (((toBE 4 arg.length ++ arg) ++ rest).take 4))
            (((toBE 4 arg.length ++ arg) ++ rest).drop 4)
        else .error .structErr) := rfl
    rw [step, if_pos (by simp [toBE_length])]
    have hshape : (toBE 4 arg.length ++ arg) ++ rest = toBE 4 arg.length ++ (arg ++ rest) :=
      List.append_assoc _ _ _
    rw [hshape, take_exact _ _ _ (toBE_length 4 arg.length),
      drop_exact _ _ _ (toBE_length 4 arg.length), fromBE_toBE]
    have hmod : arg.length % 256 ^ 4 = arg.length :=
      Nat.mod_eq_of_lt (by norm_num at h32 ⊢; omega)
    rw [hmod]
    exact loadStr_exact arg rest (by intro e; rw [e] at h0; exact absurd rfl h0)

theorem exmap_ok {α β ε : Type} (f : α → β) (a : α) :
    (Except.ok a : Except ε α).map f = .ok (f a) := rfl

theorem exmap_error {α β ε : Type} (f : α → β) (e : ε) :
    (Except.error e : Except ε α).map f = .error e := rfl

theorem exbind_ok {α β ε : Type} (f : α → Except ε β) (a : α) :
    ((Except.ok a : Except ε α) >>= f) = f a := rfl

theorem exbind_error {α β ε : Type} (f : α → Except ε β) (e : ε) :
    ((Except.error e : Except ε α) >>= f) = .error e := rfl

/-! Single-step unfolding equations for `loadFuel` at each literal tag, with
a symbolic remainder of the buffer. -/

theorem step00 (f : Nat) (L : List Nat) :
    loadFuel (f + 1) (0x00 :: L) = .ok (.none, L) := rfl

theorem step01 (f : Nat) (L : List Nat) :
    loadFuel (f + 1) (0x01 :: L) = .ok (.bytes [], L) := rfl

theorem step02 (f : Nat) (L : List Nat) :
    loadFuel (f + 1) (0x02 :: L) = .ok (.tuple [], L) := rfl

theorem step03 (f : Nat) (L : List Nat) :
    loadFuel (f + 1) (0x03 :: L) = .ok (.bool true, L) := rfl

theorem step04 (f : Nat) (L : List Nat) :
    loadFuel (f + 1) (0x04 :: L) = .ok (.bool false, L) := rfl

theorem step05 (f : Nat) (L : List Nat) :
    loadFuel (f + 1) (0x05 :: L) = .ok (.notImplemented, L) := rfl

theorem step06 (f : Nat) (L : List Nat) :
    loadFuel (f + 1) (0x06 :: L) = .ok (.ellipsis, L) := rfl

theorem step08 (f : Nat) (L : List Nat) :
    loadFuel (f + 1) (0x08 :: L) =
      (do
        let (x, r) ← loadFuel f L
        match x with
        | .bytes bs => (utf8Decode bs).map (fun cs2 => (.str cs2, r))
        | _ => .error .attrErr) := rfl

theorem step09 (f : Nat) (L : List Nat) :
    loadFuel (f + 1) (0x09 :: L) =
      (do
        let (x, r) ← loadFuel f L
        (intOfPy x).map (fun i => (.int i, r))) := rfl

theorem step0a (f : Nat) (L : List Nat) :
    loadFuel (f + 1) (0x0a :: L) = loadStr 1 L := rfl

theorem step0b (f : Nat) (L : List Nat) :
    loadFuel (f + 1) (0x0b :: L) = loadStr 2 L := rfl

theorem step0c (f : Nat) (L : List Nat) :
    loadFuel (f + 1) (0x0c :: L) = loadStr 3 L := rfl

theorem step0d (f : Nat) (L : List Nat) :
    loadFuel (f + 1) (0x0d :: L) = loadStr 4 L := rfl

theorem step0e (f l : Nat) (L : List Nat) :
    loadFuel (f + 1) (0x0e :: l :: L) = loadStr l L := rfl

theorem step0f (f : Nat) (L : List Nat) :
    loadFuel (f + 1) (0x0f :: L) =
      (if 4 ≤ L.length then loadStr (fromBE (L.take 4)) (L.drop 4)
      else .error .structErr) := rfl

theorem step10 (f : Nat) (L : List Nat) :
    loadFuel (f + 1) (0x10 :: L) = loadTup (loadFuel f) 1 L := rfl

theorem step11 (f : Nat) (L : List Nat) :
    loadFuel (f + 1) (0x11 :: L) = loadTup (loadFuel f) 2 L := rfl

theorem step12 (f : Nat) (L : List Nat) :
    loadFuel (f + 1) (0x12 :: L) = loadTup (loadFuel f) 3 L := rfl

theorem step13 (f : Nat) (L : List Nat) :
    loadFuel (f + 1) (0x13 :: L) = loadTup (loadFuel f) 4 L := rfl

theorem step14 (f l : Nat) (L : List Nat) :
    loadFuel (f + 1) (0x14 :: l :: L) = loadTup (loadFuel f) l L := rfl

theorem step15 (f : Nat) (L : List Nat) :
    loadFuel (f + 1) (0x15 :: L) =
      (if 4 ≤ L.length then loadTup (loadFuel f) (fromBE (L.take 4)) (L.drop 4)
      else .error .structErr) := rfl

theorem step16 (f l : Nat) (L : List Nat) :
    loadFuel (f + 1) (0x16 :: l :: L) = loadIntBody l L := rfl

theorem step17 (f : Nat) (L : List Nat) :
    loadFuel (f + 1) (0x17 :: L) =
      (if 4 ≤ L.length then loadIntBody (fromBE (L.take 4)) (L.drop 4)
      else .error .structErr) := rfl

theorem step18 (f : Nat) (L : List Nat) :
    loadFuel (f + 1) (0x18 :: L) =
      (if 8 ≤ L.length then .ok (.float (fromBE (L.take 8)), L.drop 8)
      else .error .structErr) := rfl

theorem step19 (f : Nat) (L : List Nat) :
    loadFuel (f + 1) (0x19 :: L) =
      (do
        let (x, r) ← loadFuel f L
        (unpack3 x).map (fun p2 => (.slice p2.1 p2.2.1 p2.2.2, r))) := rfl

theorem step1a (f : Nat) (L : List Nat) :
    loadFuel (f + 1) (0x1a :: L) =
      (do
        let (x, r) ← loadFuel f L
        (iterElems x).map (fun xs2 => (.fset xs2, r))) := rfl

theorem step1b (f : Nat) (L : List Nat) :
    loadFuel (f + 1) (0x1b :: L) =
      (if 16 ≤ L.length then .ok (.complex (fromBE (L.take 16)), L.drop 16)
      else .error .structErr) := rfl

/-- The reserved small-integer byte range, tested before generic dispatch. -/
theorem loadFuel_small (f t : Nat) (L : List Nat) (h1 : 0x20 ≤ t) (h2 : t ≤ 0xEF) :
    loadFuel (f + 1) (t :: L) = .ok (.int ((t : Int) - 0x50), L) := by
  simp only [loadFuel]
  rw [if_pos (⟨h1, h2⟩ : 0x20 ≤ t ∧ t ≤ 0xEF)]

mutual

/-- Parsing the dumped image of `v` followed by any `rest` consumes exactly
the image, produces `decOf v` (value or error), and leaves `rest` intact,
for any recursion budget of at least `pyNeed v`. -/
theorem load_dump_aux (v : PyObj) (out : List Nat) (h : dumpObj v = .ok out)
    (fuel : Nat) (hf : pyNeed v ≤ fuel) (rest : List Nat) :
    loadFuel fuel (out ++ rest) = (decOf v).map (fun x => (x, rest)) := by
  obtain ⟨f, rfl⟩ : ∃ f, fuel = f + 1 := ⟨fuel - 1, by
    have h1 : 1 ≤ pyNeed v := by cases v <;> simp only [pyNeed] <;> omega
    omega⟩
  cases v with
  | none =>
    have h2 : Except.ok [0x00] = Except.ok out := h
    cases h2
    rw [List.singleton_append, step00, decOf, exmap_ok]
  | notImplemented =>
    have h2 : Except.ok [0x05] = Except.ok out := h
    cases h2
    rw [List.singleton_append, step05, decOf, exmap_ok]
  | ellipsis =>
    have h2 : Except.ok [0x06] = Except.ok out := h
    cases h2
    rw [List.singleton_append, step06, decOf, exmap_ok]
  | bool b =>
    have h2 : Except.ok [if b then 0x03 else 0x04] = Except.ok out := h
    cases h2
    cases b
    · rw [if_neg (by simp), List.singleton_append, step04, decOf, exmap_ok]
    · rw [if_pos (by simp), List.singleton_append, step03, decOf, exmap_ok]
  | int i =>
    rw [dumpObj] at h
    split_ifs at h with h1
    · cases h
      have hv : (((i + 0x50).toNat : Int) - 0x50) = i := by omega
      rw [List.singleton_append, loadFuel_small f _ rest (by omega) (by omega), hv,
        decOf, if_pos h1, exmap_ok]
    · have hx : (if (intDecBytes i).length < 256
          then Except.ok (0x16 :: (intDecBytes i).length :: intDecBytes i)
          else (I4pack (intDecBytes i).length).map
            (fun lb => 0x17 :: (lb ++ intDecBytes i))) = .ok out := h
      split_ifs at hx with h2
      · cases hx
        rw [List.cons_append, List.cons_append, step16, loadIntBody_exact,
          decOf, if_neg h1]
      · obtain ⟨lb, hI, h3⟩ := map_ok_inv _ _ _ hx
        cases h3
        rw [I4pack] at hI
        split_ifs at hI with h32
        have hlb : Except.ok (toBE 4 (intDecBytes i).length) = Except.ok lb := hI
        cases hlb
        rw [List.cons_append, step17, if_pos (by simp [toBE_length])]
        rw [List.append_assoc, take_exact _ _ _ (toBE_length 4 _),
          drop_exact _ _ _ (toBE_length 4 _), fromBE_toBE]
        have hmod : (intDecBytes i).length % 256 ^ 4 = (intDecBytes i).length :=
          Nat.mod_eq_of_lt (by norm_num at h32 ⊢; omega)
        rw [hmod, loadIntBody_exact, decOf, if_neg h1]
  | float bits =>
    have h2 : Except.ok (0x18 :: toBE 8 bits) = Except.ok out := h
    cases h2
    rw [List.cons_append, step18, if_pos (by simp [toBE_length])]
    rw [take_exact _ _ _ (toBE_length 8 bits), drop_exact _ _ _ (toBE_length 8 bits),
      fromBE_toBE]
    have hmod : (256 : Nat) ^ 8 = 2 ^ 64 := by norm_num
    rw [hmod, decOf, exmap_ok]
  | complex bits =>
    have h2 : Except.ok (0x1b :: toBE 16 bits) = Except.ok out := h
    cases h2
    rw [List.cons_append, step1b, if_pos (by simp [toBE_length])]
    rw [take_exact _ _ _ (toBE_length 16 bits), drop_exact _ _ _ (toBE_length 16 bits),
      fromBE_toBE]
    have hmod : (256 : Nat) ^ 16 = 2 ^ 128 := by norm_num
    rw [hmod, decOf, exmap_ok]
  | bytes bs =>
    rw [decOf]
    exact load_payload bs out h (f + 1) (by omega) rest
  | str cs =>
    rw [dumpObj] at h
    obtain ⟨p, hp, hout⟩ := map_ok_inv _ _ _ h
    cases hout
    simp only [pyNeed] at hf
    rw [List.cons_append, step08, load_payload _ _ hp f (by omega) rest, decOf]
    cases hdec : decOfBytes (utf8Encode cs) with
    | error e => rw [exmap_error, exbind_error, exbind_error, exmap_error]
    | ok x =>
      rw [exmap_ok, exbind_ok, exbind_ok]
      cases x <;> simp only [exmap_ok, exmap_error]
      case bytes bs2 =>
        cases hu : utf8Decode bs2 <;> simp [exmap_ok, exmap_error]
  | slice a b c =>
    rw [dumpObj] at h
    obtain ⟨da, hda, h2⟩ := bind_ok_inv _ _ _ h
    obtain ⟨db, hdb, h3⟩ := bind_ok_inv _ _ _ h2
    obtain ⟨dc, hdc, h4⟩ := bind_ok_inv _ _ _ h3
    have h5 : Except.ok (0x19 :: 0x12 :: (da ++ db ++ dc)) = Except.ok out := h4
    cases h5
    simp only [pyNeed] at hf
    obtain ⟨f2, rfl⟩ : ∃ f2, f = f2 + 1 := ⟨f - 1, by omega⟩
    have hl : dumpList [a, b, c] = .ok (da ++ (db ++ (dc ++ []))) := by
      rw [dumpList, hda, dumpList, hdb, dumpList, hdc]
      rfl
    have ht : dumpObj (.tuple [a, b, c]) = .ok ([0x12] ++ (da ++ (db ++ (dc ++ [])))) := by
      rw [dumpObj, hl]
      rfl
    have hload := load_dump_aux (.tuple [a, b, c]) _ ht (f2 + 1)
      (by simp only [pyNeed, pyNeedList]; omega) rest
    have hbridge : ([0x12] ++ (da ++ (db ++ (dc ++ [])))) ++ rest =
        0x12 :: ((da ++ db ++ dc) ++ rest) := by simp
    rw [hbridge] at hload
    rw [List.cons_append, List.cons_append, step19, hload]
    simp only [decOf, decList]
    cases hA : decOf a with
    | error e => simp [exmap_error, exbind_error]
    | ok xa =>
      simp only [exmap_ok, exbind_ok]
      cases hB : decOf b with
      | error e => simp [exmap_error, exbind_error]
      | ok xb =>
        simp only [exmap_ok, exbind_ok]
        cases hC : decOf c with
        | error e => simp [exmap_error, exbind_error]
        | ok xc => simp [exmap_ok, exbind_ok, unpack3]
  | tuple xs =>
    rw [dumpObj] at h
    obtain ⟨hd, hh, h2⟩ := bind_ok_inv _ _ _ h
    obtain ⟨body, hb, h3⟩ := bind_ok_inv _ _ _ h2
    have h4 : Except.ok (hd ++ body) = Except.ok out := h3
    cases h4
    simp only [pyNeed] at hf
    have hmany := loadMany_dump_aux xs body hb f (by omega) rest
    rw [tupleHeader] at hh
    split_ifs at hh with g0 g1 g2 g3 g4 g5
    · have hx : xs = [] := List.length_eq_zero.mp g0
      subst hx
      have hbody : Except.ok ([] : List Nat) = Except.ok body := hb
      cases hbody
      have hhd : Except.ok [0x02] = Except.ok hd := hh
      cases hhd
      rw [show ([0x02] ++ []) ++ rest = 0x02 :: rest by simp, step02, decOf, decList]
      rfl
    · have hhd : Except.ok [0x10] = Except.ok hd := hh
      cases hhd
      rw [g1] at hmany
      rw [List.singleton_append, List.cons_append, step10, loadTup, hmany, decOf]
      cases hdl : decList xs <;> simp [exmap_ok, exmap_error]
    · have hhd : Except.ok [0x11] = Except.ok hd := hh
      cases hhd
      rw [g2] at hmany
      rw [List.singleton_append, List.cons_append, step11, loadTup, hmany, decOf]
      cases hdl : decList xs <;> simp [exmap_ok, exmap_error]
    · have hhd : Except.ok [0x12] = Except.ok hd := hh
      cases hhd
      rw [g3] at hmany
      rw [List.singleton_append, List.cons_append, step12, loadTup, hmany, decOf]
      cases hdl : decList xs <;> simp [exmap_ok, exmap_error]
    · have hhd : Except.ok [0x13] = Except.ok hd := hh
      cases hhd
      rw [g4] at hmany
      rw [List.singleton_append, List.cons_append, step13, loadTup, hmany, decOf]
      cases hdl : decList xs <;> simp [exmap_ok, exmap_error]
    · have hhd : Except.ok [0x14, xs.length] = Except.ok hd := hh
      cases hhd
      rw [show ([0x14, xs.length] ++ body) ++ rest = 0x14 :: xs.length :: (body ++ rest) by simp,
        step14, loadTup, hmany, decOf]
      cases hdl : decList xs <;> simp [exmap_ok, exmap_error]
    · obtain ⟨lb, hI, hhd⟩ := map_ok_inv _ _ _ hh
      cases hhd
      rw [I4pack] at hI
      split_ifs at hI with h32
      have hlb : Except.ok (toBE 4 xs.length) = Except.ok lb := hI
      cases hlb
      rw [List.cons_append, List.cons_append, step15, if_pos (by simp [toBE_length])]
      rw [List.append_assoc, take_exact _ _ _ (toBE_length 4 _),
        drop_exact _ _ _ (toBE_length 4 _), fromBE_toBE]
      have hmod : xs.length % 256 ^ 4 = xs.length :=
        Nat.mod_eq_of_lt (by norm_num at h32 ⊢; omega)
      rw [hmod, loadTup, hmany, decOf]
      cases hdl : decList xs <;> simp [exmap_ok, exmap_error]
  | fset xs =>
    rw [dumpObj] at h
    obtain ⟨hd, hh, h2⟩ := bind_ok_inv _ _ _ h
    obtain ⟨body, hb, h3⟩ := bind_ok_inv _ _ _ h2
    have h4 : Except.ok (0x1a :: (hd ++ body)) = Except.ok out := h3
    cases h4
    simp only [pyNeed] at hf
    obtain ⟨f2, rfl⟩ : ∃ f2, f = f2 + 1 := ⟨f - 1, by omega⟩
    have ht : dumpObj (.tuple xs) = .ok (hd ++ body) := by
      rw [dumpObj, hh, hb]
      rfl
    have hload := load_dump_aux (.tuple xs) _ ht (f2 + 1)
      (by simp only [pyNeed]; omega) rest
    rw [List.cons_append, step1a, hload]
    simp only [decOf]
    cases hdl : decList xs with
    | error e => simp [exmap_error, exbind_error]
    | ok l => simp [exmap_ok, exbind_ok, iterElems]
  | unsupported n => exact Except.noConfusion h

/-- Element-loop version of `load_dump_aux` for the body of a tuple. -/
theorem loadMany_dump_aux (xs : List PyObj) (out : List Nat) (h : dumpList xs = .ok out)
    (fuel : Nat) (hf : pyNeedList xs ≤ fuel) (rest : List Nat) :
    loadManyAux (loadFuel fuel) xs.length (out ++ rest) =
      (decList xs).map (fun l => (l, rest)) := by
  cases xs with
  | nil =>
    have h2 : Except.ok ([] : List Nat) = Except.ok out := h
    cases h2
    rfl
  | cons x xs =>
    rw [dumpList] at h
    obtain ⟨d, hd2, h2⟩ := bind_ok_inv _ _ _ h
    obtain ⟨r, hr, h3⟩ := bind_ok_inv _ _ _ h2
    have h4 : Except.ok (d ++ r) = Except.ok out := h3
    cases h4
    simp only [pyNeedList] at hf
    have step : loadManyAux (loadFuel fuel) (x :: xs).length ((d ++ r) ++ rest) =
        (do
          let (y, rr) ← loadFuel fuel ((d ++ r) ++ rest)
          let (ys, r2) ← loadManyAux (loadFuel fuel) xs.length rr
          Except.ok (y :: ys, r2)) := rfl
    rw [step, List.append_assoc, load_dump_aux x d hd2 fuel (by omega) (r ++ rest)]
    cases hx : decOf x with
    | error e => simp [decList, hx, exmap_error, exbind_error]
    | ok y =>
      simp only [exmap_ok, exbind_ok]
      rw [loadMany_dump_aux xs r hr fuel (by omega) rest]
      cases hxs : decList xs with
      | error e => simp [decList, hx, hxs, exmap_error, exbind_error, exmap_ok, exbind_ok]
      | ok l => simp [decList, hx, hxs, exmap_error, exbind_error, exmap_ok, exbind_ok]

end

/-- `load` of a dumped image with any byte suffix behind it: the suffix is
never inspected and the outcome — value or exception — is `decOf v`. -/
theorem load_dump_suffix (v : PyObj) (bs : List Nat) (h : dump v = .ok bs)
    (s : List Nat) : load (bs ++ s) = decOf v := by
  have hlen := pyNeed_le v bs h
  rw [load, load_dump_aux v bs h ((bs ++ s).length + 1)
    (by simp only [List.length_append]; omega) s]
  cases decOf v <;> rfl

/-- `load (dump v)` itself equals `decOf v`. -/
theorem load_dump_eq (v : PyObj) (bs : List Nat) (h : dump v = .ok bs) :
    load bs = decOf v := by
  have h2 := load_dump_suffix v bs h []
  rwa [List.append_nil] at h2

mutual

/-- Every length that must fit a 32-bit length or count field does: the
decimal text of the integer, the byte-string, the UTF-8 image of the text,
and the arity of every tuple and frozenset, recursively. Inside this bound
`I4.pack` cannot fail, so `dump` can only fail by meeting an unsupported
kind. -/
def wf32 : PyObj → Bool
  | .int i => decide (-48 ≤ i ∧ i ≤ 159) || decide ((intDecBytes i).length < 2 ^ 32)
  | .bytes bs => decide (bs.length < 2 ^ 32)
  | .str cs => decide ((utf8Encode cs).length < 2 ^ 32)
  | .slice a b c => wf32 a && wf32 b && wf32 c
  | .tuple xs => decide (xs.length < 2 ^ 32) && wf32List xs
  | .fset xs => decide (xs.length < 2 ^ 32) && wf32List xs
  | _ => true

/-- `wf32` for every element. -/
def wf32List : List PyObj → Bool
  | [] => true
  | x :: xs => wf32 x && wf32List xs

end

theorem dumpBytesPayload_total (bs : List Nat) (h : bs.length < 2 ^ 32) :
    ∃ out, dumpBytesPayload bs = .ok out := by
  rw [dumpBytesPayload]
  split_ifs with h0 h1 h2 h3 h4 h5
  · exact ⟨_, rfl⟩
  · exact ⟨_, rfl⟩
  · exact ⟨_, rfl⟩
  · exact ⟨_, rfl⟩
  · exact ⟨_, rfl⟩
  · exact ⟨_, rfl⟩
  · rw [I4pack, if_pos h]
    exact ⟨_, rfl⟩

theorem tupleHeader_total (n : Nat) (h : n < 2 ^ 32) :
    ∃ out, tupleHeader n = .ok out := by
  rw [tupleHeader]
  split_ifs with h0 h1 h2 h3 h4 h5
  · exact ⟨_, rfl⟩
  · exact ⟨_, rfl⟩
  · exact ⟨_, rfl⟩
  · exact ⟨_, rfl⟩
  · exact ⟨_, rfl⟩
  · exact ⟨_, rfl⟩
  · rw [I4pack, if_pos h]
    exact ⟨_, rfl⟩

mutual

/-- Inside the 32-bit length bounds, `dumpable` decides exactly whether
`dump` succeeds, and a failing `dump` fails with the `TypeError` of
`_undumpable` (never any other error). -/
theorem dump_total (v : PyObj) (hw : wf32 v = true) :
    (dumpable v = true → ∃ bs, dumpObj v = .ok bs) ∧
    (dumpable v = false → dumpObj v = .error .typeErr) := by
  cases v with
  | none => exact ⟨fun _ => ⟨_, rfl⟩, fun h => by simp [dumpable] at h⟩
  | notImplemented => exact ⟨fun _ => ⟨_, rfl⟩, fun h => by simp [dumpable] at h⟩
  | ellipsis => exact ⟨fun _ => ⟨_, rfl⟩, fun h => by simp [dumpable] at h⟩
  | bool b => exact ⟨fun _ => ⟨_, rfl⟩, fun h => by simp [dumpable] at h⟩
  | float bits => exact ⟨fun _ => ⟨_, rfl⟩, fun h => by simp [dumpable] at h⟩
  | complex bits => exact ⟨fun _ => ⟨_, rfl⟩, fun h => by simp [dumpable] at h⟩
  | int i =>
    refine ⟨fun _ => ?_, fun h => by simp [dumpable] at h⟩
    rw [dumpObj]
    split_ifs with h1
    · exact ⟨_, rfl⟩
    · rw [wf32] at hw
      have hlen : (intDecBytes i).length < 2 ^ 32 := by
        rcases Bool.or_eq_true_iff.mp hw with hs | hl
        · exact absurd (of_decide_eq_true hs) h1
        · exact of_decide_eq_true hl
      have hgoal : ∃ bs, (if (intDecBytes i).length < 256
          then Except.ok (0x16 :: (intDecBytes i).length :: intDecBytes i)
          else (I4pack (intDecBytes i).length).map
            (fun lb => 0x17 :: (lb ++ intDecBytes i))) = Except.ok bs := by
        split_ifs with h2
        · exact ⟨_, rfl⟩
        · rw [I4pack, if_pos hlen]
          exact ⟨_, rfl⟩
      exact hgoal
  | bytes bs =>
    refine ⟨fun _ => ?_, fun h => by simp [dumpable] at h⟩
    rw [wf32] at hw
    exact dumpBytesPayload_total bs (of_decide_eq_true hw)
  | str cs =>
    refine ⟨fun _ => ?_, fun h => by simp [dumpable] at h⟩
    rw [wf32] at hw
    obtain ⟨p, hp⟩ := dumpBytesPayload_total (utf8Encode cs) (of_decide_eq_true hw)
    rw [dumpObj, hp]
    exact ⟨_, rfl⟩
  | slice a b c =>
    rw [wf32] at hw
    have hwa : wf32 a = true := by
      rcases Bool.and_eq_true_iff.mp hw with ⟨h1, _⟩
      exact (Bool.and_eq_true_iff.mp h1).1
    have hwb : wf32 b = true := by
      rcases Bool.and_eq_true_iff.mp hw with ⟨h1, _⟩
      exact (Bool.and_eq_true_iff.mp h1).2
    have hwc : wf32 c = true := (Bool.and_eq_true_iff.mp hw).2
    have ia := dump_total a hwa
    have ib := dump_total b hwb
    have ic := dump_total c hwc
    constructor
    · intro hd
      rw [dumpable] at hd
      have hda : dumpable a = true := by
        rcases Bool.and_eq_true_iff.mp hd with ⟨h1, _⟩
        exact (Bool.and_eq_true_iff.mp h1).1
      have hdb : dumpable b = true := by
        rcases Bool.and_eq_true_iff.mp hd with ⟨h1, _⟩
        exact (Bool.and_eq_true_iff.mp h1).2
      have hdc : dumpable c = true := (Bool.and_eq_true_iff.mp hd).2
      obtain ⟨da, ha⟩ := ia.1 hda
      obtain ⟨db, hb⟩ := ib.1 hdb
      obtain ⟨dc, hc⟩ := ic.1 hdc
      rw [dumpObj, ha, hb, hc]
      exact ⟨_, rfl⟩
    · intro hd
      rw [dumpable] at hd
      rw [dumpObj]
      cases hda : dumpable a with
      | false =>
        rw [ia.2 hda]
        rfl
      | true =>
        obtain ⟨da, ha⟩ := ia.1 hda
        rw [ha]
        cases hdb : dumpable b with
        | false =>
          rw [exbind_ok, ib.2 hdb]
          rfl
        | true =>
          obtain ⟨db, hb⟩ := ib.1 hdb
          rw [exbind_ok, hb]
          cases hdc : dumpable c with
          | false =>
            rw [exbind_ok, ic.2 hdc]
            rfl
          | true =>
            rw [hda, hdb, hdc] at hd
            simp at hd
  | tuple xs =>
    rw [wf32] at hw
    have hlen : xs.length < 2 ^ 32 := of_decide_eq_true (Bool.and_eq_true_iff.mp hw).1
    have hwl : wf32List xs = true := (Bool.and_eq_true_iff.mp hw).2
    obtain ⟨hd, hh⟩ := tupleHeader_total xs.length hlen
    have il := dumpList_total xs hwl
    constructor
    · intro hdm
      rw [dumpable] at hdm
      obtain ⟨body, hb⟩ := il.1 hdm
      rw [dumpObj, hh, hb]
      exact ⟨_, rfl⟩
    · intro hdm
      rw [dumpable] at hdm
      rw [dumpObj, hh, exbind_ok, il.2 hdm]
      rfl
  | fset xs =>
    rw [wf32] at hw
    have hlen : xs.length < 2 ^ 32 := of_decide_eq_true (Bool.and_eq_true_iff.mp hw).1
    have hwl : wf32List xs = true := (Bool.and_eq_true_iff.mp hw).2
    obtain ⟨hd, hh⟩ := tupleHeader_total xs.length hlen
    have il := dumpList_total xs hwl
    constructor
    · intro hdm
      rw [dumpable] at hdm
      obtain ⟨body, hb⟩ := il.1 hdm
      rw [dumpObj, hh, hb]
      exact ⟨_, rfl⟩
    · intro hdm
      rw [dumpable] at hdm
      rw [dumpObj, hh, exbind_ok, il.2 hdm]
      rfl
  | unsupported n =>
    exact ⟨fun h => by simp [dumpable] at h, fun _ => rfl⟩

/-- List version of `dump_total`. -/
theorem dumpList_total (xs : List PyObj) (hw : wf32List xs = true) :
    (dumpableList xs = true → ∃ bs, dumpList xs = .ok bs) ∧
    (dumpableList xs = false → dumpList xs = .error .typeErr) := by
  cases xs with
  | nil => exact ⟨fun _ => ⟨_, rfl⟩, fun h => by simp [dumpableList] at h⟩
  | cons x xs =>
    rw [wf32List] at hw
    have hwx : wf32 x = true := (Bool.and_eq_true_iff.mp hw).1
    have hwxs : wf32List xs = true := (Bool.and_eq_true_iff.mp hw).2
    have ix := dump_total x hwx
    have il := dumpList_total xs hwxs
    constructor
    · intro hdm
      rw [dumpableList] at hdm
      obtain ⟨d, hdx⟩ := ix.1 (Bool.and_eq_true_iff.mp hdm).1
      obtain ⟨r, hr⟩ := il.1 (Bool.and_eq_true_iff.mp hdm).2
      rw [dumpList, hdx, hr]
      exact ⟨_, rfl⟩
    · intro hdm
      rw [dumpableList] at hdm
      rw [dumpList]
      cases hdx : dumpable x with
      | false =>
        rw [ix.2 hdx]
        rfl
      | true =>
        obtain ⟨d, hx2⟩ := ix.1 hdx
        rw [hx2, exbind_ok]
        have hxs : dumpableList xs = false := by
          rw [hdx] at hdm
          simpa using hdm
        rw [il.2 hxs]
        rfl

end

/-- Bool observer for the dispatch `TypeError` outcome of `load` (used so
bounded quantification over tag bytes stays kernel-decidable). -/
def isDispatchErr : Except LoadErr PyObj → Bool
  | .error .dispatchTypeErr => true
  | _ => false

/-- The tag bytes `_load` recognizes: singletons and typed tags 0x00-0x06
and 0x08-0x1b from the registry, and the reserved small-integer range. -/
def isKnownTagByte (t : Nat) : Bool :=
  t ≤ 0x06 || (0x08 ≤ t && t ≤ 0x1b) || (0x20 ≤ t && t ≤ 0xEF)

end Brine


/-!
The socket stream of rpyc/core/stream.py. The transport itself (the
`socket` object, the `errno` values and `get_exc_errno` from the missing
`rpyc.lib.compat`) is modelled from the spec: each `recv` / `send` call is
an event drawn from a schedule — a data delivery, a `socket.timeout`, or a
`socket.error` carrying an errno — and the peer's sent-but-unread bytes are
an explicit buffer. A zero-length `recv` result models the peer having
closed. The vendored `rpyc/external/socket.py` in this tree is a
non-importable stub, so the exception taxonomy follows the standard
library: `socket.timeout` and `socket.error` are the distinct classes the
two `except` arms of `SocketStream.read` name.
-/

namespace RpycStream

/-- One transport interaction: the transport hands over data (`hint`
selects the fragment size the embedding delivers, at least one byte,
clamped to the request and the buffer), or the call raises
`socket.timeout`, or it raises `socket.error` with the given errno. -/
inductive IOEvent where
  | deliver (hint : Nat)
  | timeoutEv
  | sockErr (e : Nat)
  deriving DecidableEq, Repr

/-- `errno.EAGAIN` (Linux value; `EWOULDBLOCK` is the same number there). -/
def EAGAIN : Nat := 11

/-- `errno.EWOULDBLOCK`. -/
def EWOULDBLOCK : Nat := 11

/-- `retry_errnos = (errno.EAGAIN, errno.EWOULDBLOCK)` membership. -/
def retryErrno (e : Nat) : Bool := e = EAGAIN || e = EWOULDBLOCK

/-- `SocketStream.MAX_IO_CHUNK`. -/
def MAX_IO_CHUNK : Nat := 64000

/-- Result of `SocketStream.read`: all requested data plus the still-open
transport, or an `EOFError` raised after closing the stream, or the call
still blocking when the event schedule runs out. -/
inductive ReadRes where
  | ok (data : List Nat) (pending : List Nat) (events : List IOEvent)
  | eofErr
  | blocked
  deriving DecidableEq, Repr

/-- `SocketStream.read(count)` against a transport whose deliveries,
timeouts and errors are scheduled in `events` and whose remaining incoming
bytes are `pending`: loop while bytes are missing; retry on
`socket.timeout` and on the `retry_errnos`; close and raise `EOFError` on
any other `socket.error`; a zero-length `recv` (peer closed, modelled by
an exhausted `pending`) closes and raises `EOFError`; each delivery is
capped by `min(MAX_IO_CHUNK, count)` and appended; partial data is never
returned. -/
def sockRead : Nat → List Nat → List IOEvent → ReadRes
  | 0, pending, events => .ok [] pending events
  | count + 1, pending, events =>
    match events with
    | [] => .blocked
    | .timeoutEv :: evs => sockRead (count + 1) pending evs
    | .sockErr e :: evs =>
      if retryErrno e then sockRead (count + 1) pending evs else .eofErr
    | .deliver hint :: evs =>
      match pending with
      | [] => .eofErr
      | p :: ps =>
        let cap := min MAX_IO_CHUNK (count + 1)
        let k := min (max hint 1) (min cap (p :: ps).length)
        match sockRead (count + 1 - k) ((p :: ps).drop k) evs with
        | .ok data pend evs2 => .ok ((p :: ps).take k ++ data) pend evs2
        | r => r

/-- Result of `SocketStream.write`: everything sent (with the remaining
schedule), or `EOFError` after closing, or still blocked. -/
inductive WriteRes where
  | done (events : List IOEvent)
  | eofErr
  | blocked
  deriving DecidableEq, Repr

/-- `SocketStream.write(data)`: send in chunks of at most `MAX_IO_CHUNK`;
`send` reports how much it accepted (the delivery hint, at least one byte,
capped by the chunk). The single `except socket.error` arm treats every
transport exception — including `socket.timeout` and the `retry_errnos`,
since both are `socket.error`s — as fatal: close, then raise `EOFError`.
-/
def sockWrite : List Nat → List IOEvent → WriteRes
  | [], events => .done events
  | d :: ds, events =>
    match events with
    | [] => .blocked
    | .timeoutEv :: _ => .eofErr
    | .sockErr _ :: _ => .eofErr
    | .deliver hint :: evs =>
      let cap := min MAX_IO_CHUNK (d :: ds).length
      let k := min (max hint 1) cap
      sockWrite ((d :: ds).drop k) evs

/-- A `SocketStream`: an open socket (with its transport state), or closed
(`self.sock is ClosedFile`). -/
inductive StreamSt where
  | live (pending : List Nat) (events : List IOEvent)
  | closedS
  deriving DecidableEq, Repr

/-- Result of a stream-level read. -/
inductive StreamReadRes where
  | ok (data : List Nat) (st : StreamSt)
  | eofErr
  | blocked
  deriving DecidableEq, Repr

/-- Result of a stream-level write. -/
inductive StreamWriteRes where
  | done (st : StreamSt)
  | eofErr
  | blocked
  deriving DecidableEq, Repr

/-- Result of `fileno`. -/
inductive FilenoRes where
  | okF
  | eofErrF
  deriving DecidableEq, Repr

/-- `SocketStream.close`: shut down and close the socket (errors from the
shutdown are swallowed), then replace it with the `ClosedFile` sentinel;
on an already-closed stream the sentinel's `close()` is a no-op, so the
result is the closed state either way. -/
def close : StreamSt → StreamSt := fun _ => .closedS

/-- `SocketStream.closed`: `self.sock is ClosedFile`. -/
def closed : StreamSt → Bool
  | .closedS => true
  | .live _ _ => false

/-- `SocketStream.read` on a stream: on a closed stream, a request for
zero bytes returns the empty byte-string without touching the socket
(the `while count > 0` loop never runs), and any positive request hits
`ClosedFile.recv`, which raises `EOFError` — an exception neither `except`
arm catches. -/
def streamRead (count : Nat) : StreamSt → StreamReadRes
  | .live pending events =>
    match sockRead count pending events with
    | .ok data pend evs => .ok data (.live pend evs)
    | .eofErr => .eofErr
    | .blocked => .blocked
  | .closedS => if count = 0 then .ok [] .closedS else .eofErr

/-- `SocketStream.write` on a stream: writing the empty byte-string never
enters the loop and returns silently even when the stream is closed;
nonempty data on a closed stream hits `ClosedFile.send`, raising
`EOFError`. -/
def streamWrite (data : List Nat) : StreamSt → StreamWriteRes
  | .live pending events =>
    match sockWrite data events with
    | .done evs => .done (.live pending evs)
    | .eofErr => .eofErr
    | .blocked => .blocked
  | .closedS => if data = [] then .done .closedS else .eofErr

/-- `SocketStream.fileno`: `ClosedFile.fileno` raises `EOFError`; the
surrounding handler only catches `socket.error`, so it propagates. -/
def fileno : StreamSt → FilenoRes
  | .live _ _ => .okF
  | .closedS => .eofErrF

example : sockRead 3 [7, 8, 9, 10] [.deliver 1, .timeoutEv, .deliver 5, .deliver 9] =
    .ok [7, 8, 9] [10] [.deliver 9] := rfl
example : sockRead 2 [7] [.deliver 9, .deliver 1] = .eofErr := rfl
example : sockRead 1 [42] [.sockErr 11, .deliver 1] = .ok [42] [] [] := rfl
example : sockRead 1 [42] [.sockErr 104, .deliver 1] = .eofErr := rfl
example : sockWrite [1, 2] [.deliver 1, .deliver 1] = .done [] := rfl
example : sockWrite [1, 2] [.sockErr 11, .deliver 9] = .eofErr := rfl
example : sockWrite [1] [.timeoutEv, .deliver 9] = .eofErr := rfl

end RpycStream

/-!
The connect-with-backoff helper of rpyc/lib/(package root). The socket is
modelled by a schedule of per-attempt outcomes: each `sock.connect(addr)`
within the timeout either succeeds or raises `socket.timeout`.
-/

namespace RpycLib

/-- Outcome of one `sock.connect` attempt under `settimeout(timeout)`. -/
inductive AttemptRes where
  | timesOut
  | connects
  deriving DecidableEq, Repr

/-- Result of `socket_backoff_connect`: a connected socket after the given
number of attempts, the re-raised `socket.timeout` at the given collision
count, or the schedule running out with the loop still going. -/
inductive ConnRes where
  | connected (collision : Nat)
  | raisedTimeout (collision : Nat)
  | scriptOver
  deriving DecidableEq, Repr

/-- The `while connecting` loop of `socket_backoff_connect`, carrying the
`collision` counter: on `socket.timeout`, re-raise if
`collision == attempts or attempts < 1`, otherwise close, make a fresh
socket, sleep `exp_backoff(collision)` and retry. -/
def backoffGo (attempts : Int) (collision : Nat) : List AttemptRes → ConnRes
  | [] => .scriptOver
  | .connects :: _ => .connected (collision + 1)
  | .timesOut :: rs =>
    if (collision + 1 : Int) = attempts ∨ attempts < 1 then
      .raisedTimeout (collision + 1)
    else backoffGo attempts (collision + 1) rs

/-- `socket_backoff_connect(family, socktype, proto, addr, timeout,
attempts)`, with the address/tuning arguments abstracted away and the
transport behaviour given by the attempt schedule. -/
def socket_backoff_connect (attempts : Int) (script : List AttemptRes) : ConnRes :=
  backoffGo attempts 0 script

example : socket_backoff_connect 6 [.timesOut, .connects] = .connected 2 := rfl
example : socket_backoff_connect 2 [.timesOut, .timesOut, .connects] = .raisedTimeout 2 := rfl
example : socket_backoff_connect 0 [.timesOut, .connects] = .raisedTimeout 1 := rfl

/-- The supremum `2**n - supremum_adjustment` that `exp_backoff` hands to
`random.uniform`, with `n = min(collision, 10)`. -/
def exp_backoff_sup (collision : Nat) : ℚ :=
  2 ^ (min collision 10) - (if 3 < min collision 10 then 1 else 0)

/-- `exp_backoff(collision)`, with the draw `k` of
`random.uniform(0, 2**n - supremum_adjustment)` made explicit: the delay
returned is `k * 0.0000512`. -/
def exp_backoff (collision : Nat) (k : ℚ) : ℚ :=
  k * (0.0000512 : ℚ)

end RpycLib

namespace RpycStream

/-- Whenever `SocketStream.read` returns, it returns exactly the requested
number of bytes — the first `count` bytes the peer sent — and leaves the
rest of the incoming bytes pending. -/
theorem sockRead_ok_exact (events : List IOEvent) :
    ∀ count pending data pend evs2,
      sockRead count pending events = .ok data pend evs2 →
      data.length = count ∧ data = pending.take count ∧ pend = pending.drop count := by
  induction events with
  | nil =>
    intro count pending data pend evs2 h
    cases count with
    | zero =>
      have h2 : ReadRes.ok [] pending [] = .ok data pend evs2 := h
      cases h2
      simp
    | succ c => exact ReadRes.noConfusion h
  | cons ev evs ih =>
    intro count pending data pend evs2 h
    cases count with
    | zero =>
      have h2 : ReadRes.ok [] pending (ev :: evs) = .ok data pend evs2 := h
      cases h2
      simp
    | succ c =>
      cases ev with
      | timeoutEv => exact ih (c + 1) pending data pend evs2 h
      | sockErr e =>
        have h2 : (if retryErrno e = true then sockRead (c + 1) pending evs
            else ReadRes.eofErr) = .ok data pend evs2 := h
        by_cases hr : retryErrno e = true
        · rw [if_pos hr] at h2
          exact ih (c + 1) pending data pend evs2 h2
        · rw [if_neg hr] at h2
          exact ReadRes.noConfusion h2
      | deliver hint =>
        cases pending with
        | nil => exact ReadRes.noConfusion h
        | cons p ps =>
          set K := min (max hint 1) (min (min MAX_IO_CHUNK (c + 1)) (p :: ps).length)
            with hKdef
          have hK1 : 1 ≤ K := by
            have hlen : 1 ≤ (p :: ps).length := by simp
            simp only [hKdef, MAX_IO_CHUNK]
            omega
          have hKc : K ≤ c + 1 := by
            simp only [hKdef, MAX_IO_CHUNK]
            omega
          have hKlen : K ≤ (p :: ps).length := by
            simp only [hKdef]
            omega
          have h2 : (match sockRead (c + 1 - K) ((p :: ps).drop K) evs with
              | .ok data pend evs2 => ReadRes.ok ((p :: ps).take K ++ data) pend evs2
              | r => r) = .ok data pend evs2 := h
          cases hrec : sockRead (c + 1 - K) ((p :: ps).drop K) evs with
          | ok d2 p2 e2 =>
            rw [hrec] at h2
            have h3 : ReadRes.ok ((p :: ps).take K ++ d2) p2 e2 = .ok data pend evs2 := h2
            cases h3
            obtain ⟨ihl, ihd, ihp⟩ := ih _ _ _ _ _ hrec
            refine ⟨?_, ?_, ?_⟩
            · rw [List.length_append, List.length_take, ihl]
              omega
            · rw [ihd]
              have hsplit : c + 1 = K + (c + 1 - K) := by omega
              rw [hsplit, List.take_add]
              have hfix : K + (c + 1 - K) - K = c + 1 - K := by omega
              rw [hfix]
            · rw [ihp, List.drop_drop]
              congr 1
              omega
          | eofErr =>
            rw [hrec] at h2
            exact ReadRes.noConfusion h2
          | blocked =>
            rw [hrec] at h2
            exact ReadRes.noConfusion h2

end RpycStream

namespace RpycStream

/-- A transport delivering one byte per `recv` still produces an exact
read: with at least `n` bytes incoming, `read(n)` returns the first `n`. -/
theorem sockRead_frag (n : Nat) : ∀ pending : List Nat, n ≤ pending.length →
    sockRead n pending (List.replicate n (.deliver 1)) =
      .ok (pending.take n) (pending.drop n) [] := by
  induction n with
  | zero =>
    intro pending h
    simp [sockRead]
  | succ n ih =>
    intro pending h
    cases pending with
    | nil => simp at h
    | cons p ps =>
      have hrepl : List.replicate (n + 1) (IOEvent.deliver 1) =
          .deliver 1 :: List.replicate n (.deliver 1) := rfl
      rw [hrepl]
      have step : sockRead (n + 1) (p :: ps) (.deliver 1 :: List.replicate n (.deliver 1)) =
          (match sockRead
              (n + 1 - min (max 1 1) (min (min MAX_IO_CHUNK (n + 1)) (p :: ps).length))
              ((p :: ps).drop (min (max 1 1) (min (min MAX_IO_CHUNK (n + 1)) (p :: ps).length)))
              (List.replicate n (.deliver 1)) with
          | .ok data pend evs2 =>
            ReadRes.ok ((p :: ps).take
              (min (max 1 1) (min (min MAX_IO_CHUNK (n + 1)) (p :: ps).length)) ++ data) pend evs2
          | r => r) := rfl
      have hK : min (max 1 1) (min (min MAX_IO_CHUNK (n + 1)) (p :: ps).length) = 1 := by
        simp only [MAX_IO_CHUNK, List.length_cons]
        omega
      rw [step, hK]
      have hn2 : n + 1 - 1 = n := rfl
      have hdrop1 : (p :: ps).drop 1 = ps := rfl
      rw [hn2, hdrop1, ih ps (by simpa using h)]
      simp [List.take_succ_cons, List.drop_succ_cons]

end RpycStream

/-! ## The claims -/

namespace Brine

/-- C1: the claim says `load(dump(v))` is structurally equal to `v` for
every dumpable `v`, in particular for byte-strings and text of every
length. The py3 code breaks it: `read_str` decodes every non-empty string
payload as ASCII text, so `load(dump(b"ab"))` returns the text
`"ab"` — not the byte-string — `load(dump(u"hi"))` dies with an
`AttributeError` (a py3 `str` has no `.decode`), and
`load(dump(b"\xff"))` dies with a `UnicodeDecodeError`; the module's own
docstring example asserts `load(dump(x)) == x` over such values, so the
code contradicts its documentation. -/
theorem C1_py3_load_mangles_bytes_and_text :
    dump (.bytes [97, 98]) = .ok [0x0b, 97, 98] ∧
    load [0x0b, 97, 98] = .ok (.str [97, 98]) ∧
    PyObj.str [97, 98] ≠ PyObj.bytes [97, 98] ∧
    dump (.str [104, 105]) = .ok [0x08, 0x0b, 104, 105] ∧
    load [0x08, 0x0b, 104, 105] = .error .attrErr ∧
    dump (.bytes [255]) = .ok [0x0a, 255] ∧
    load [0x0a, 255] = .error .unicodeDecodeErr :=
  ⟨rfl, rfl, fun h => PyObj.noConfusion h, rfl, rfl, rfl, rfl⟩

/-- C2 counterexample: the claim says a declared length exceeding the
remaining buffer makes `load` fail with `MalformedDataError`; instead the
string loaders silently return the truncated payload — a 32-bit length
field of 5 over a 2-byte remainder yields the text `"ab"`, and a
truncated 1-byte string yields `""`. -/
theorem C2_counterexample :
    load [0x0f, 0, 0, 0, 5, 97, 98] = .ok (.str [97, 98]) ∧
    load [0x0a] = .ok (.str []) :=
  ⟨rfl, rfl⟩

/-- C2 amended: no `MalformedDataError` exists. An empty buffer or an
unrecognized tag byte makes the registry dispatch call `None` and die with
a `TypeError`; a fixed-size payload or length field truncated before its
declared size dies with a `struct.error` from `unpack`; but a length
prefix exceeding the remaining buffer is not detected — the string
loaders silently return whatever is left. -/
theorem C2_malformed_input_behaviour :
    load [] = .error .dispatchTypeErr ∧
    (∀ t : Nat, t < 256 → isKnownTagByte t = false →
      isDispatchErr (load [t]) = true) ∧
    load [0x18] = .error .structErr ∧
    load [0x1b] = .error .structErr ∧
    load [0x0e] = .error .structErr ∧
    load [0x0f, 0, 0] = .error .structErr ∧
    load [0x0f, 0, 0, 0, 5, 97, 98] = .ok (.str [97, 98]) := by
  refine ⟨rfl, ?_, rfl, rfl, rfl, rfl, rfl⟩
  set_option maxRecDepth 4000 in decide

/-- Witness for C2: tag byte 0x07 is unrecognized and dispatches the
`TypeError`. -/
theorem C2_witness : isDispatchErr (load [7]) = true :=
  C2_malformed_input_behaviour.2.1 7 (by decide) (by decide)

/-- C6 counterexample: the claim says `dumpable` returns True exactly when
`dump` succeeds, and that `dump` fails only with `UnsupportedTypeError` on
an unsupported kind. A byte-string of length `2 ^ 32` — a supported kind —
is `dumpable`, yet `dump` fails, and it fails with `struct.error` from
`I4.pack("!L")`, not with the `TypeError` of `_undumpable`. -/
theorem C6_counterexample :
    dumpable (.bytes (List.replicate (2 ^ 32) 0)) = true ∧
    dump (.bytes (List.replicate (2 ^ 32) 0)) = .error .structErr := by
  constructor
  · rw [dumpable]
    all_goals intros
    all_goals rename_i h
    all_goals exact PyObj.noConfusion h
  · simp only [dump]
    rw [dumpObj, dumpBytesPayload]
    simp only [List.length_replicate]
    norm_num [I4pack]
    rfl

/-- C6 amended: within the 32-bit length bounds (`wf32`: all byte-string
lengths, decimal-text lengths and tuple/frozenset arities below `2 ^ 32`),
`dumpable` decides exactly whether `dump` succeeds, and a failing `dump`
fails precisely with the `TypeError` of `_undumpable`. `dumpable` itself
is a total function by construction. -/
theorem C6_dumpable_decides_dump (v : PyObj) (hw : wf32 v = true) :
    (dumpable v = true → ∃ bs, dump v = .ok bs) ∧
    (dumpable v = false → dump v = .error .typeErr) :=
  dump_total v hw

/-- Witness for C6: a tuple containing an unsupported object is rejected
by `dumpable` and makes `dump` raise the `TypeError`. -/
theorem C6_witness : dump (.tuple [.int 7, .unsupported 0]) = .error .typeErr :=
  (C6_dumpable_decides_dump (.tuple [.int 7, .unsupported 0]) (by decide)).2 (by decide)

/-- C8: integers in the reserved range −48..159 dump to the single byte
`value + 0x50` (so exactly 1 byte, no tag); byte-strings of length 1-4
dump to the per-length tag `9 + len` followed by the raw bytes (so exactly
`1 + len` bytes, no length field); and the loader resolves any first byte
in the reserved range 0x20..0xEF to the small integer before any generic
tag dispatch, whatever follows. -/
theorem C8_density_and_reserved_range :
    (∀ i : Int, -48 ≤ i → i ≤ 159 → dump (.int i) = .ok [(i + 0x50).toNat]) ∧
    (∀ bs : List Nat, 1 ≤ bs.length → bs.length ≤ 4 →
      dump (.bytes bs) = .ok ((9 + bs.length) :: bs)) ∧
    (∀ (f t : Nat) (rest : List Nat), 0x20 ≤ t → t ≤ 0xEF →
      loadFuel (f + 1) (t :: rest) = .ok (.int ((t : Int) - 0x50), rest)) := by
  refine ⟨?_, ?_, ?_⟩
  · intro i h1 h2
    show dumpObj (.int i) = _
    rw [dumpObj, if_pos ⟨h1, h2⟩]
  · intro bs h1 h4
    show dumpBytesPayload bs = _
    have hcase : bs.length = 1 ∨ bs.length = 2 ∨ bs.length = 3 ∨ bs.length = 4 := by omega
    rw [dumpBytesPayload]
    rcases hcase with h | h | h | h <;> simp [h]
  · intro f t rest h1 h2
    exact loadFuel_small f t rest h1 h2

/-- Witness for C8 at `7`, `b"\x05"` and tag byte 0x57. -/
theorem C8_witness :
    dump (.int 7) = .ok [((7 : Int) + 0x50).toNat] ∧
    dump (.bytes [5]) = .ok ((9 + ([5] : List Nat).length) :: [5]) ∧
    loadFuel 1 [0x57] = .ok (.int ((0x57 : Int) - 0x50), []) :=
  ⟨C8_density_and_reserved_range.1 7 (by norm_num) (by norm_num),
   C8_density_and_reserved_range.2.1 [5] (by norm_num) (by norm_num),
   C8_density_and_reserved_range.2.2 0 0x57 [] (by norm_num) (by norm_num)⟩

/-- C10: decoding consumes exactly one value's encoding and never looks at
what follows: appending any byte suffix to a dumped image leaves the
result of `load` — value or exception — unchanged. -/
theorem C10_trailing_bytes_ignored (v : PyObj) (bs s : List Nat)
    (h : dump v = .ok bs) : load (bs ++ s) = load bs := by
  rw [load_dump_suffix v bs h s, load_dump_eq v bs h]

/-- Witness for C10: the image of `(7, True)` with three trailing junk
bytes loads to the same result as the image alone. -/
theorem C10_witness :
    load ([0x11, 0x57, 0x03] ++ [0xFF, 1, 2]) = load [0x11, 0x57, 0x03] :=
  C10_trailing_bytes_ignored (.tuple [.int 7, .bool true]) [0x11, 0x57, 0x03]
    [0xFF, 1, 2] rfl

end Brine

namespace RpycStream

/-- C3: `SocketStream.read(n)` on an open stream returns exactly `n` bytes
whenever it returns: any successful read of `n` bytes is precisely the
first `n` incoming bytes, even byte-by-byte delivery produces the exact
result, and a peer close (zero-length `recv`) raises `EOFError` with no
partial data returned. -/
theorem C3_read_exact :
    (∀ count pending events data pend evs2,
      sockRead count pending events = .ok data pend evs2 →
      data.length = count ∧ data = pending.take count ∧ pend = pending.drop count) ∧
    (∀ n pending, n ≤ pending.length →
      streamRead n (.live pending (List.replicate n (.deliver 1))) =
        .ok (pending.take n) (.live (pending.drop n) [])) ∧
    (∀ n hint evs, 1 ≤ n →
      streamRead n (.live [] (.deliver hint :: evs)) = .eofErr) := by
  refine ⟨?_, ?_, ?_⟩
  · intro count pending events data pend evs2 h
    exact sockRead_ok_exact events count pending data pend evs2 h
  · intro n pending h
    show (match sockRead n pending (List.replicate n (.deliver 1)) with
      | .ok data pend evs => StreamReadRes.ok data (.live pend evs)
      | .eofErr => StreamReadRes.eofErr
      | .blocked => StreamReadRes.blocked) = _
    rw [sockRead_frag n pending h]
  · intro n hint evs h
    obtain ⟨c, rfl⟩ : ∃ c, n = c + 1 := ⟨n - 1, by omega⟩
    rfl

/-- Witness for C3 with a 3-byte buffer. -/
theorem C3_witness :
    (([5, 6] : List Nat).length = 2 ∧
      ([5, 6] : List Nat) = ([5, 6, 7] : List Nat).take 2 ∧
      ([7] : List Nat) = ([5, 6, 7] : List Nat).drop 2) ∧
    streamRead 2 (.live [5, 6, 7] (List.replicate 2 (.deliver 1))) =
      .ok [5, 6] (.live [7] []) ∧
    streamRead 1 (.live [] [.deliver 3]) = .eofErr :=
  ⟨C3_read_exact.1 2 [5, 6, 7] [.deliver 9] [5, 6] [7] [] rfl,
   C3_read_exact.2.1 2 [5, 6, 7] (by decide),
   C3_read_exact.2.2 1 3 [] (by decide)⟩

/-- C4 counterexample: the claim says that for `write` as well as `read`,
a transient resource-temporarily-unavailable error (EAGAIN) or a timeout
is retried in place and never surfaced. In `write` the single
`except socket.error` arm has no retry test at all: an EAGAIN — after
which the transport would have accepted the byte — closes the stream and
raises `EOFError`, and so does a timeout. -/
theorem C4_counterexample :
    sockWrite [1] [.sockErr EAGAIN, .deliver 1] = .eofErr ∧
    sockWrite [1] [.timeoutEv, .deliver 1] = .eofErr :=
  ⟨rfl, rfl⟩

/-- C4 amended: `read` retries `socket.timeout` and the EAGAIN/EWOULDBLOCK
errnos in place and turns every other socket error into close +
`EOFError`; `write` retries nothing — every socket error, timeouts and
EAGAIN included, closes the stream and raises `EOFError`. -/
theorem C4_transient_error_handling :
    (∀ c pending evs, sockRead (c + 1) pending (.timeoutEv :: evs) =
      sockRead (c + 1) pending evs) ∧
    (∀ c pending evs e, retryErrno e = true →
      sockRead (c + 1) pending (.sockErr e :: evs) = sockRead (c + 1) pending evs) ∧
    (∀ c pending evs e, retryErrno e = false →
      sockRead (c + 1) pending (.sockErr e :: evs) = .eofErr) ∧
    (∀ d ds evs, sockWrite (d :: ds) (.timeoutEv :: evs) = .eofErr) ∧
    (∀ d ds evs e, sockWrite (d :: ds) (.sockErr e :: evs) = .eofErr) := by
  refine ⟨fun c pending evs => rfl, ?_, ?_, fun d ds evs => rfl, fun d ds evs e => rfl⟩
  · intro c pending evs e hr
    show (if retryErrno e = true then sockRead (c + 1) pending evs else .eofErr) = _
    rw [if_pos hr]
  · intro c pending evs e hr
    show (if retryErrno e = true then sockRead (c + 1) pending evs else .eofErr) = _
    rw [if_neg (by rw [hr]; exact Bool.false_ne_true)]

/-- Witness for C4: EAGAIN (11) is retried by `read`, errno 104 is fatal. -/
theorem C4_witness :
    sockRead 1 [42] [.sockErr 11, .deliver 1] = sockRead 1 [42] [.deliver 1] ∧
    sockRead 1 [42] [.sockErr 104] = .eofErr :=
  ⟨C4_transient_error_handling.2.1 0 [42] [.deliver 1] 11 rfl,
   C4_transient_error_handling.2.2.1 0 [42] [] 104 rfl⟩

/-- C9 counterexample: the claim says that after `close` every subsequent
`read`, `write` or `fileno` call fails observably. A zero-byte `read` and
an empty `write` on a closed stream return silently — the loops in both
never touch the `ClosedFile` sentinel. -/
theorem C9_counterexample :
    streamRead 0 .closedS = .ok [] .closedS ∧
    streamWrite [] .closedS = .done .closedS :=
  ⟨rfl, rfl⟩

/-- C9 amended: `close` is idempotent and afterwards `closed` reports
True; `fileno`, every `read` of a positive count and every `write` of
nonempty data on the closed stream raise `EOFError`; but `read(0)` and
`write(b"")` return silently without touching the transport. -/
theorem C9_close_idempotent_and_observable_failure :
    (∀ s, close (close s) = close s) ∧
    (∀ s, closed (close s) = true) ∧
    (∀ n, 1 ≤ n → streamRead n .closedS = .eofErr) ∧
    (∀ d ds, streamWrite (d :: ds) .closedS = .eofErr) ∧
    fileno .closedS = .eofErrF ∧
    streamRead 0 .closedS = .ok [] .closedS ∧
    streamWrite [] .closedS = .done .closedS := by
  refine ⟨fun s => rfl, fun s => rfl, ?_, ?_, rfl, rfl, rfl⟩
  · intro n h
    show (if n = 0 then StreamReadRes.ok [] .closedS else .eofErr) = _
    rw [if_neg (by omega)]
  · intro d ds
    show (if (d :: ds) = [] then StreamWriteRes.done .closedS else .eofErr) = _
    rw [if_neg (by simp)]

/-- Witness for C9 at a one-byte read and write. -/
theorem C9_witness :
    streamRead 1 .closedS = .eofErr ∧ streamWrite [9] .closedS = .eofErr :=
  ⟨C9_close_idempotent_and_observable_failure.2.2.1 1 (by norm_num),
   C9_close_idempotent_and_observable_failure.2.2.2.1 9 []⟩

end RpycStream

namespace RpycLib

/-- C5 counterexample: the claim says `attempts < 1` means unlimited
retries, so no number of timeouts ever surfaces the timeout error. In the
code the guard `collision == attempts or attempts < 1` re-raises on the
very first timeout when `attempts` is 0 — even though the next scheduled
attempt would have connected. -/
theorem C5_counterexample :
    socket_backoff_connect 0 [.timesOut, .connects] = .raisedTimeout 1 :=
  rfl

/-- C5 amended: `attempts < 1` is not unlimited — it disables retrying
entirely: with any `attempts < 1` the first connect-timeout is re-raised
immediately, whatever attempts would follow. -/
theorem C5_attempts_below_one_raise_immediately (a : Int) (h : a < 1)
    (rs : List AttemptRes) :
    socket_backoff_connect a (.timesOut :: rs) = .raisedTimeout 1 := by
  show (if ((0 : Nat) + 1 : Int) = a ∨ a < 1 then ConnRes.raisedTimeout (0 + 1)
    else backoffGo a (0 + 1) rs) = _
  rw [if_pos (Or.inr h)]

/-- Witness for C5 at `attempts = -3`. -/
theorem C5_witness : socket_backoff_connect (-3) [.timesOut] = .raisedTimeout 1 :=
  C5_attempts_below_one_raise_immediately (-3) (by norm_num) []

/-- C7: for every attempt number `n ≥ 1` and every possible draw `k` of
`random.uniform(0, 2**min(n,10) - adjustment)`, the delay `k * 0.0000512`
lies in the closed interval from 0 to
`(2^min(n,10) - (1 if n > 3 else 0)) * 0.0000512` seconds (the code tests
`min(n,10) > 3`, which is equivalent to `n > 3`). -/
theorem C7_backoff_delay_bound (n : Nat) (k : ℚ) (hn : 1 ≤ n) (h0 : 0 ≤ k)
    (hk : k ≤ exp_backoff_sup n) :
    0 ≤ exp_backoff n k ∧
    exp_backoff n k ≤ (2 ^ min n 10 - (if 3 < n then 1 else 0)) * (0.0000512 : ℚ) := by
  constructor
  · exact mul_nonneg h0 (by norm_num)
  · have hsup : exp_backoff_sup n = 2 ^ min n 10 - (if 3 < n then 1 else 0) := by
      rw [exp_backoff_sup]
      congr 1
      have hiff : 3 < min n 10 ↔ 3 < n := by omega
      exact if_congr hiff rfl rfl
    calc exp_backoff n k = k * (0.0000512 : ℚ) := rfl
      _ ≤ exp_backoff_sup n * (0.0000512 : ℚ) :=
          mul_le_mul_of_nonneg_right hk (by norm_num)
      _ = _ := by rw [hsup]

/-- Witness for C7 at attempt 5 with draw 3. -/
theorem C7_witness :
    0 ≤ exp_backoff 5 3 ∧
    exp_backoff 5 3 ≤ (2 ^ min 5 10 - (if 3 < 5 then 1 else 0)) * (0.0000512 : ℚ) :=
  C7_backoff_delay_bound 5 3 (by norm_num) (by norm_num)
    (by rw [exp_backoff_sup]; norm_num)

end RpycLib
